import Mathlib

/-!
Verification of the router lifecycle automaton of akanda-rug
(src/akanda/rug/state.py) against its natural-language specification.

The state machine is embedded shallowly: event tags and appliance lifecycle
states are inductive types, the event queue is a list of optional event tags
(the Python deque can also carry None, the value of a missing action), and the
appliance manager -- an external collaborator living in akanda.rug.vm_manager,
which is not part of the sources under verification -- is an oracle of
functions from its observable fields to their next value.  The pump loop of
Automaton.update is modelled with explicit fuel, and ghost counters record
delete-callback invocations, Exit transitions and boot calls.
-/

set_option autoImplicit false

namespace AkandaRug

/-- Event tags carried on the automaton queue, from akanda.rug.event:
POLL, CREATE, READ, UPDATE, DELETE, REBUILD. -/
inductive Event
  | poll
  | create
  | read
  | update
  | delete
  | rebuild
deriving DecidableEq

/-- Appliance lifecycle states read by the automaton, from
akanda.rug.vm_manager: DOWN, BOOTING, UP, CONFIGURED, RESTART, ERROR, GONE. -/
inductive VmState
  | down
  | booting
  | up
  | configured
  | restart
  | error
  | gone
deriving DecidableEq

/-- Coalescing loop of CalcAction.execute (the while-loop body of
akanda.rug.state.CalcAction.execute).  The current action is an optional
event tag; a Python-falsy action is modelled as none.  Each iteration applies
the first matching rule to the queue head: UPDATE upgraded by a CREATE or
REBUILD head, a CREATE action absorbing an UPDATE head, any truthy action
discarding a POLL head, a truthy non-POLL action differing from the head
stopping the loop, and otherwise the head popped into the action. -/
def calcLoop : Option Event → List (Option Event) → Option Event × List (Option Event)
  | a, [] => (a, [])
  | a, h :: t =>
    if a = some Event.update ∧ h = some Event.create then calcLoop h t
    else if a = some Event.update ∧ h = some Event.rebuild then calcLoop h t
    else if a = some Event.create ∧ h = some Event.update then calcLoop a t
    else if a ≠ none ∧ h = some Event.poll then calcLoop a t
    else if a ≠ none ∧ a ≠ some Event.poll ∧ a ≠ h then (a, h :: t)
    else calcLoop h t

/-- CalcAction.execute from akanda.rug.state: if a DELETE is anywhere on the
queue, shortcut to DELETE without touching the queue; otherwise fold the
queue into a single action with the coalescing loop. -/
def CalcAction.execute (a : Option Event) (q : List (Option Event)) :
    Option Event × List (Option Event) :=
  if some Event.delete ∈ q then (some Event.delete, q) else calcLoop a q

/-- Observable fields of the appliance manager that the automaton reads:
the lifecycle state and the boot-attempt counter. -/
structure Vm where
  state : VmState
  attempts : Nat
deriving DecidableEq

/-- Operations the automaton invokes on its appliance manager.  The manager
(akanda.rug.vm_manager) is an external collaborator, so each operation is an
oracle mapping the observable fields to their next value. -/
structure VmOps where
  boot : Vm → Vm
  check_boot : Vm → Vm
  configure : Vm → Vm
  update_state : Vm → Vm
  stop : Vm → Vm
  set_error : Vm → Vm
  clear_error : Vm → Vm

/-- Ghost record of the appliance-manager and callback calls a single
execute performs. -/
structure Effects where
  boot : Nat := 0
  checkBoot : Nat := 0
  configure : Nat := 0
  updateState : Nat := 0
  stop : Nat := 0
  setError : Nat := 0
  clearError : Nat := 0
  readStats : Nat := 0
  bandwidth : Nat := 0
deriving DecidableEq

/-- Names of the state vertices of the machine in akanda.rug.state. -/
inductive SName
  | calcAction
  | pushUpdate
  | alive
  | createVM
  | checkBoot
  | configureVM
  | readStats
  | stopVM
  | rebuildVM
  | exitS
deriving DecidableEq

/-- Execute method of each state vertex, from akanda.rug.state.  Takes the
current action, queue and appliance fields and returns the new action, queue
and appliance fields together with the ghost record of calls made.  Exit has
no override, so it keeps the base behaviour of returning the action. -/
def stateExecute (ops : VmOps) (th : Nat) :
    SName → Option Event → List (Option Event) → Vm →
      Option Event × List (Option Event) × Vm × Effects
  | SName.calcAction, a, q, vm =>
    let r := CalcAction.execute a q
    (r.1, r.2, vm, {})
  | SName.pushUpdate, _, q, vm => (none, some Event.update :: q, vm, {})
  | SName.alive, a, q, vm => (a, q, ops.update_state vm, { updateState := 1 })
  | SName.createVM, a, q, vm =>
    if vm.attempts ≥ th then (a, q, ops.set_error vm, { setError := 1 })
    else (a, q, ops.boot vm, { boot := 1 })
  | SName.checkBoot, a, q, vm =>
    let vm2 := ops.check_boot vm
    if vm2.state ≠ VmState.gone then (a, a :: q, vm2, { checkBoot := 1 })
    else (a, q, vm2, { checkBoot := 1 })
  | SName.configureVM, a, q, vm =>
    let vm2 := ops.configure vm
    if vm2.state = VmState.configured then
      (if a = some Event.read then some Event.read else some Event.poll, q, vm2,
        { configure := 1 })
    else (a, q, vm2, { configure := 1 })
  | SName.readStats, _, q, vm =>
    (some Event.poll, q, vm, { readStats := 1, bandwidth := 1 })
  | SName.stopVM, a, q, vm =>
    let vm2 := ops.stop vm
    if vm2.state = VmState.gone then (some Event.delete, q, vm2, { stop := 1 })
    else (a, q, vm2, { stop := 1 })
  | SName.rebuildVM, _, q, vm =>
    if vm.state = VmState.error then
      let vm2 := ops.stop (ops.clear_error vm)
      if vm2.state = VmState.gone then
        (some Event.delete, q, vm2, { stop := 1, clearError := 1 })
      else (some Event.create, q, vm2, { stop := 1, clearError := 1 })
    else
      let vm2 := ops.stop vm
      if vm2.state = VmState.gone then (some Event.delete, q, vm2, { stop := 1 })
      else (some Event.create, q, vm2, { stop := 1 })
  | SName.exitS, a, q, vm => (a, q, vm, {})

/-- Transition method of each state vertex, from akanda.rug.state, as a
function of the action returned by execute and the appliance state it left
behind.  Exit has no override, so it keeps the base behaviour of returning
itself. -/
def stateTransition : SName → Option Event → VmState → SName
  | SName.calcAction, a, st =>
    if st = VmState.gone then SName.stopVM
    else if a = some Event.delete then SName.stopVM
    else if a = some Event.rebuild then SName.rebuildVM
    else if st = VmState.booting then SName.checkBoot
    else if st = VmState.down then SName.createVM
    else SName.alive
  | SName.pushUpdate, _, _ => SName.calcAction
  | SName.alive, a, st =>
    if st = VmState.gone then SName.stopVM
    else if st = VmState.down then SName.createVM
    else if a = some Event.poll ∧ st = VmState.configured then SName.calcAction
    else if a = some Event.read ∧ st = VmState.configured then SName.readStats
    else SName.configureVM
  | SName.createVM, _, st =>
    if st = VmState.gone then SName.stopVM
    else if st = VmState.error then SName.calcAction
    else SName.checkBoot
  | SName.checkBoot, _, st =>
    if st = VmState.gone then SName.stopVM
    else if st = VmState.up then SName.configureVM
    else SName.calcAction
  | SName.configureVM, a, st =>
    if st = VmState.restart ∨ st = VmState.down ∨ st = VmState.gone then
      SName.stopVM
    else if st = VmState.up then SName.pushUpdate
    else if a = some Event.read then SName.readStats
    else SName.calcAction
  | SName.readStats, _, _ => SName.calcAction
  | SName.stopVM, a, st =>
    if st ≠ VmState.down ∧ st ≠ VmState.gone then SName.stopVM
    else if st = VmState.gone then SName.exitS
    else if a = some Event.delete then SName.exitS
    else SName.createVM
  | SName.rebuildVM, _, st =>
    if st ≠ VmState.down ∧ st ≠ VmState.gone then SName.rebuildVM
    else if st = VmState.gone then SName.exitS
    else SName.createVM
  | SName.exitS, _, _ => SName.exitS

/-- Automaton driver data, from akanda.rug.state.Automaton: the deleted flag,
whether the delete callback is still armed (not yet nulled), the current
action, the event queue, the current state vertex and the observable
appliance fields, plus ghost counters for delete-callback invocations, Exit
transitions and cumulative boot calls. -/
structure Config where
  deleted : Bool
  cbPresent : Bool
  cbCount : Nat
  exits : Nat
  boots : Nat
  action : Option Event
  queue : List (Option Event)
  state : SName
  vm : Vm
deriving DecidableEq

/-- Automaton._do_delete: invoke the delete callback if it is still armed,
null it, and set the deleted flag. -/
def doDelete (c : Config) : Config :=
  if c.cbPresent then
    { c with cbCount := c.cbCount + 1, cbPresent := false, deleted := true }
  else { c with deleted := true }

/-- One cycle of the pump body: run the current vertex's execute, then its
transition on the returned action and resulting appliance state. -/
def cycle (ops : VmOps) (th : Nat) (c : Config) : Config × Effects :=
  let r := stateExecute ops th c.state c.action c.queue c.vm
  ({ c with
      action := r.1
      queue := r.2.1
      vm := r.2.2.1
      state := stateTransition c.state r.1 r.2.2.1.state
      boots := c.boots + r.2.2.2.boot },
    r.2.2.2)

/-- Reason a modelled pump invocation ended: the queue was empty at entry, the
deleted flag was observed, the machine re-entered CalcAction (yield), Exit was
reached and the delete path ran, or the modelling fuel ran out with the
Python loop still running. -/
inductive PumpExit
  | emptyQueue
  | wasDeleted
  | yieldCalc
  | exitDeleted
  | fuelOut
deriving DecidableEq

/-- Inner while-True loop of Automaton.update, with fuel bounding the number
of modelled cycles.  Returns the final configuration, the number of cycles
run, and the reason the loop ended. -/
def pumpLoop (ops : VmOps) (th : Nat) : Nat → Config → Config × Nat × PumpExit
  | 0, c => (c, 0, PumpExit.fuelOut)
  | fuel + 1, c =>
    if c.deleted then (c, 0, PumpExit.wasDeleted)
    else
      let c1 := (cycle ops th c).1
      if c1.state = SName.calcAction then (c1, 1, PumpExit.yieldCalc)
      else if c1.state = SName.exitS then
        (doDelete { c1 with exits := c1.exits + 1 }, 1, PumpExit.exitDeleted)
      else
        let r := pumpLoop ops th fuel c1
        (r.1, r.2.1 + 1, r.2.2)

/-- Automaton.update from akanda.rug.state: the worker pump.  With an empty
queue it returns at once; otherwise it runs cycles until the deleted flag is
observed, the machine re-enters CalcAction, or Exit is reached (running
_do_delete). -/
def Automaton.update (ops : VmOps) (th : Nat) (fuel : Nat) (c : Config) :
    Config × Nat × PumpExit :=
  if c.queue = [] then (c, 0, PumpExit.emptyQueue) else pumpLoop ops th fuel c

/-- Automaton.send_message from akanda.rug.state: reject when deleted, reject
a POLL while the appliance is in ERROR, otherwise append the event tag to the
back of the queue and accept. -/
def send_message (c : Config) (e : Event) : Config × Bool :=
  if c.deleted then (c, false)
  else if e = Event.poll ∧ c.vm.state = VmState.error then (c, false)
  else ({ c with queue := c.queue ++ [some e] }, true)

/-- Configuration built by Automaton.__init__ with a delete callback
provided: not deleted, callback armed, empty queue, action POLL, state
CalcAction, and the given appliance fields. -/
def initConfig (vm : Vm) : Config :=
  { deleted := false, cbPresent := true, cbCount := 0, exits := 0, boots := 0,
    action := some Event.poll, queue := [], state := SName.calcAction, vm := vm }

/-- One externally invoked operation on the automaton: a send_message with an
event tag, or an update (pump) call with a given appliance behaviour and
fuel. -/
inductive Op
  | send (e : Event)
  | pump (ops : VmOps) (th : Nat) (fuel : Nat)

/-- Apply one external operation to a configuration. -/
def runOp (c : Config) : Op → Config
  | Op.send e => (send_message c e).1
  | Op.pump ops th fuel => (Automaton.update ops th fuel c).1

/-- Apply a sequence of external operations to a configuration. -/
def run (c : Config) : List Op → Config
  | [] => c
  | op :: rest => run (runOp c op) rest

/-- Iterate the pump cycle body a given number of times. -/
def iterCycle (ops : VmOps) (th : Nat) : Nat → Config → Config
  | 0, c => c
  | n + 1, c => iterCycle ops th n (cycle ops th c).1

/-- A configuration at which the pump loop stops: the machine just
re-entered CalcAction or reached Exit. -/
def isYield (c : Config) : Prop :=
  c.state = SName.calcAction ∨ c.state = SName.exitS

/-- Configuration the pump returns when the loop stops at the given one:
the Exit case runs _do_delete and records the Exit transition. -/
def postOf (c : Config) : Config :=
  if c.state = SName.exitS then doDelete { c with exits := c.exits + 1 } else c

/-- Exit reason the pump reports when the loop stops at the given
configuration. -/
def reasonOf (c : Config) : PumpExit :=
  if c.state = SName.exitS then PumpExit.exitDeleted else PumpExit.yieldCalc

/-- One-shot discipline of the delete callback: either not yet deleted with
the callback still armed and never invoked and no Exit transition taken, or
deleted with the callback disarmed after exactly one invocation at the single
Exit transition. -/
def CbInv (c : Config) : Prop :=
  (c.deleted = false ∧ c.cbPresent = true ∧ c.cbCount = 0 ∧ c.exits = 0) ∨
  (c.deleted = true ∧ c.cbPresent = false ∧ c.cbCount = 1 ∧ c.exits = 1)

/-- Modelled from the spec: the appliance manager (akanda.rug.vm_manager,
absent from src) keeps the ERROR latch across update_state and configure
until it is explicitly cleared, and its stop drives the lifecycle state to
DOWN or GONE. -/
def ErrorLatch (ops : VmOps) : Prop :=
  (∀ vm : Vm, vm.state = VmState.error → (ops.update_state vm).state = VmState.error) ∧
  (∀ vm : Vm, vm.state = VmState.error → (ops.configure vm).state = VmState.error) ∧
  (∀ vm : Vm, (ops.stop vm).state = VmState.down ∨ (ops.stop vm).state = VmState.gone)

/-- Configurations reachable after the boot loop has latched ERROR and before
any REBUILD event is processed: no REBUILD pending, and the machine is either
cycling through the states that never boot while the appliance stays in
ERROR, or on the delete path through StopVM, or at Exit. -/
def NoRebuildInv (c : Config) : Prop :=
  some Event.rebuild ∉ c.queue ∧ c.action ≠ some Event.rebuild ∧
  ((c.vm.state = VmState.error ∧
      (c.state = SName.calcAction ∨ c.state = SName.alive ∨
        c.state = SName.configureVM ∨ c.state = SName.readStats)) ∨
    (c.state = SName.stopVM ∧ c.action = some Event.delete) ∨
    c.state = SName.exitS)

/-- Appliance oracle whose operations never change the observable fields:
an appliance stuck in its current state. -/
def stuckOps : VmOps :=
  { boot := id, check_boot := id, configure := id, update_state := id,
    stop := id, set_error := id, clear_error := id }

/-- Deterministic appliance oracle following the spec's description of the
manager: boot moves to BOOTING and counts an attempt, check_boot moves
BOOTING to UP, configure moves UP to CONFIGURED, stop moves to DOWN,
set_error latches ERROR, clear_error releases it to DOWN, and update_state
keeps the observed state. -/
def specOps : VmOps :=
  { boot := fun vm => { state := VmState.booting, attempts := vm.attempts + 1 }
    check_boot := fun vm =>
      if vm.state = VmState.booting then { vm with state := VmState.up } else vm
    configure := fun vm =>
      if vm.state = VmState.up then { vm with state := VmState.configured } else vm
    update_state := id
    stop := fun vm => { vm with state := VmState.down }
    set_error := fun vm => { vm with state := VmState.error }
    clear_error := fun vm => { vm with state := VmState.down } }

/-- Starting configuration for the C6 counterexample: one DELETE on the
queue, appliance UP and stuck there. -/
def c6Start : Config :=
  { deleted := false, cbPresent := true, cbCount := 0, exits := 0, boots := 0,
    action := some Event.poll, queue := [some Event.delete],
    state := SName.calcAction, vm := { state := VmState.up, attempts := 0 } }

/-- Configuration the C6 counterexample run reaches after one cycle and then
repeats forever: StopVM with the stuck appliance still UP. -/
def c6Stuck : Config :=
  { c6Start with action := some Event.delete, state := SName.stopVM }

/-- Configuration left behind by a latched boot loop: appliance in ERROR at
CalcAction with nothing pending. -/
def c5ErrCfg : Config :=
  { deleted := false, cbPresent := true, cbCount := 0, exits := 0, boots := 0,
    action := some Event.create, queue := [], state := SName.calcAction,
    vm := { state := VmState.error, attempts := 5 } }

/-- Starting configuration for the C7 witness: one POLL on the queue,
appliance CONFIGURED. -/
def c7Cfg : Config :=
  { deleted := false, cbPresent := true, cbCount := 0, exits := 0, boots := 0,
    action := some Event.poll, queue := [some Event.poll],
    state := SName.calcAction, vm := { state := VmState.configured, attempts := 0 } }

/-- Appliance oracle for an appliance whose backing resource has vanished:
stop reports GONE and the other operations change nothing. -/
def goneOps : VmOps :=
  { boot := id, check_boot := id, configure := id, update_state := id,
    stop := fun vm => { vm with state := VmState.gone }, set_error := id,
    clear_error := id }

/-- Starting configuration for the C6 amended-bound witness: one DELETE on
the queue and the appliance already GONE. -/
def c6GoneCfg : Config :=
  { c6Start with vm := { state := VmState.gone, attempts := 0 } }

/-- C1: if the event tag DELETE occurs anywhere in the queue, CalcAction's
execute returns DELETE and leaves the queue exactly as it was. -/
theorem c1_delete_dominance (a : Option Event) (q : List (Option Event))
    (h : some Event.delete ∈ q) :
    CalcAction.execute a q = (some Event.delete, q) := by
  simp [CalcAction.execute, h]

/-- Witness for C1: a concrete queue containing DELETE. -/
theorem c1_delete_dominance_witness :
    CalcAction.execute (some Event.poll) [some Event.delete] =
      (some Event.delete, [some Event.delete]) :=
  c1_delete_dominance (some Event.poll) [some Event.delete] (by decide)

/-- C2: on DELETE-free queues CalcAction's execute folds the queue by the
first matching rule against the head (empty queue returns the action; UPDATE
upgraded by a CREATE or REBUILD head; a CREATE action absorbing an UPDATE
head; any truthy action discarding a POLL head; a truthy non-POLL action
differing from the head stopping with the head in place; otherwise the head
popped into the action), and the listed concrete examples from action POLL
hold. -/
theorem c2_coalescing_rules (a h : Option Event) (t : List (Option Event)) :
    (CalcAction.execute a [] = (a, [])) ∧
    (some Event.delete ∉ t →
      CalcAction.execute (some Event.update) (some Event.create :: t) =
        CalcAction.execute (some Event.create) t) ∧
    (some Event.delete ∉ t →
      CalcAction.execute (some Event.update) (some Event.rebuild :: t) =
        CalcAction.execute (some Event.rebuild) t) ∧
    (some Event.delete ∉ t →
      CalcAction.execute (some Event.create) (some Event.update :: t) =
        CalcAction.execute (some Event.create) t) ∧
    (some Event.delete ∉ t → a ≠ none →
      CalcAction.execute a (some Event.poll :: t) = CalcAction.execute a t) ∧
    (some Event.delete ∉ h :: t → a ≠ none → a ≠ some Event.poll → a ≠ h →
      ¬(a = some Event.update ∧ h = some Event.create) →
      ¬(a = some Event.update ∧ h = some Event.rebuild) →
      ¬(a = some Event.create ∧ h = some Event.update) →
      h ≠ some Event.poll →
      CalcAction.execute a (h :: t) = (a, h :: t)) ∧
    (some Event.delete ∉ h :: t →
      (a = none ∨ a = some Event.poll ∨ a = h) →
      ¬(a = some Event.update ∧ h = some Event.create) →
      ¬(a = some Event.update ∧ h = some Event.rebuild) →
      ¬(a = some Event.create ∧ h = some Event.update) →
      ¬(a ≠ none ∧ h = some Event.poll) →
      CalcAction.execute a (h :: t) = CalcAction.execute h t) ∧
    (CalcAction.execute (some Event.poll) [some Event.update, some Event.create]
      = (some Event.create, [])) ∧
    (CalcAction.execute (some Event.poll) [some Event.create, some Event.update]
      = (some Event.create, [])) ∧
    (CalcAction.execute (some Event.poll) [some Event.update, some Event.rebuild]
      = (some Event.rebuild, [])) ∧
    (CalcAction.execute (some Event.poll)
      [some Event.create, some Event.poll, some Event.poll, some Event.update]
      = (some Event.create, [])) ∧
    (CalcAction.execute (some Event.poll) [some Event.update, some Event.read]
      = (some Event.update, [some Event.read])) := by
  refine ⟨?_, ?_, ?_, ?_, ?_, ?_, ?_,
    by decide, by decide, by decide, by decide, by decide⟩
  · simp [CalcAction.execute, calcLoop]
  · intro hnd
    simp [CalcAction.execute, calcLoop, hnd]
  · intro hnd
    simp [CalcAction.execute, calcLoop, hnd]
  · intro hnd
    simp [CalcAction.execute, calcLoop, hnd]
  · intro hnd ha
    simp [CalcAction.execute, calcLoop, hnd, ha]
  · intro hnd ha hap hah h1 h2 h3 hp
    have hnd' : some Event.delete ∉ t := fun hm => hnd (List.mem_cons_of_mem _ hm)
    simp [CalcAction.execute, calcLoop, hnd, hnd', ha, hap, hah, h1, h2, h3, hp]
  · intro hnd hdef h1 h2 h3 h4
    have hnd' : some Event.delete ∉ t := fun hm => hnd (List.mem_cons_of_mem _ hm)
    have hbar : ¬(a ≠ none ∧ a ≠ some Event.poll ∧ a ≠ h) := by
      rcases hdef with rfl | rfl | rfl
      · exact fun hc => hc.1 rfl
      · exact fun hc => hc.2.1 rfl
      · exact fun hc => hc.2.2 rfl
    simp only [CalcAction.execute, calcLoop, if_neg hnd, if_neg hnd',
      if_neg h1, if_neg h2, if_neg h3, if_neg h4, if_neg hbar]

/-- Witness for C2: the UPDATE-upgraded-by-CREATE rule and the heterogeneous
barrier at concrete inputs. -/
theorem c2_coalescing_rules_witness :
    (CalcAction.execute (some Event.update) [some Event.create] =
      CalcAction.execute (some Event.create) []) ∧
    (CalcAction.execute (some Event.update) [some Event.read] =
      (some Event.update, [some Event.read])) := by
  refine ⟨(c2_coalescing_rules (some Event.update) (some Event.read) []).2.1
    (by decide), ?_⟩
  exact (c2_coalescing_rules (some Event.update) (some Event.read)
    []).2.2.2.2.2.1 (by decide) (by decide) (by decide) (by decide)
    (by decide) (by decide) (by decide) (by decide)

/-- C4: send_message returns false exactly when the deleted flag is set or
the event is a POLL while the appliance is in ERROR; when it accepts, the
event tag is appended to the back of the queue and nothing else changes;
when it rejects, the configuration is untouched, so rejected events never
enter the queue. -/
theorem c4_send_message_contract (c : Config) (e : Event) :
    ((send_message c e).2 = false ↔
      (c.deleted = true ∨ (e = Event.poll ∧ c.vm.state = VmState.error))) ∧
    ((send_message c e).2 = true →
      (send_message c e).1 = { c with queue := c.queue ++ [some e] }) ∧
    ((send_message c e).2 = false → (send_message c e).1 = c) := by
  unfold send_message
  rcases hd : c.deleted with _ | _
  · by_cases hp : e = Event.poll ∧ c.vm.state = VmState.error
    · simp [hp]
    · simp [hp, hd]
  · simp [hd]

/-- Witness for C4: an accepted CREATE lands at the back of the queue, and a
POLL against an ERROR appliance is rejected without touching anything. -/
theorem c4_send_message_contract_witness :
    (send_message c5ErrCfg Event.create).1 =
      { c5ErrCfg with queue := c5ErrCfg.queue ++ [some Event.create] } ∧
    (send_message c5ErrCfg Event.poll).1 = c5ErrCfg := by
  refine ⟨(c4_send_message_contract c5ErrCfg Event.create).2.1 (by decide), ?_⟩
  exact (c4_send_message_contract c5ErrCfg Event.poll).2.2 (by decide)

/-- C8: CheckBoot's execute calls check_boot, pushes the current action back
onto the front of the queue exactly when the appliance is not GONE
afterwards, and returns the action unchanged; its transition goes to StopVM
on GONE, to ConfigureVM on UP, and to CalcAction otherwise. -/
theorem c8_check_boot_behavior (ops : VmOps) (th : Nat) (a : Option Event)
    (q : List (Option Event)) (vm : Vm) :
    ((stateExecute ops th SName.checkBoot a q vm).2.2.2.checkBoot = 1) ∧
    ((stateExecute ops th SName.checkBoot a q vm).2.2.1 = ops.check_boot vm) ∧
    ((stateExecute ops th SName.checkBoot a q vm).1 = a) ∧
    ((ops.check_boot vm).state ≠ VmState.gone →
      (stateExecute ops th SName.checkBoot a q vm).2.1 = a :: q) ∧
    ((ops.check_boot vm).state = VmState.gone →
      (stateExecute ops th SName.checkBoot a q vm).2.1 = q) ∧
    (∀ st : VmState, stateTransition SName.checkBoot a st =
      if st = VmState.gone then SName.stopVM
      else if st = VmState.up then SName.configureVM
      else SName.calcAction) := by
  refine ⟨?_, ?_, ?_, ?_, ?_, fun st => rfl⟩ <;>
    · unfold stateExecute
      by_cases hg : (ops.check_boot vm).state = VmState.gone <;> simp [hg]

/-- Witness for C8: with a check_boot that reports UP the action is pushed
back on the front of the queue; with one that reports GONE it is not. -/
theorem c8_check_boot_behavior_witness :
    (stateExecute specOps 3 SName.checkBoot (some Event.create) []
        { state := VmState.booting, attempts := 1 }).2.1 =
      [some Event.create] ∧
    (stateExecute stuckOps 3 SName.checkBoot (some Event.create) []
        { state := VmState.gone, attempts := 1 }).2.1 = [] := by
  refine ⟨?_, ?_⟩
  · exact (c8_check_boot_behavior specOps 3 (some Event.create) []
      { state := VmState.booting, attempts := 1 }).2.2.2.1 (by decide)
  · exact (c8_check_boot_behavior stuckOps 3 (some Event.create) []
      { state := VmState.gone, attempts := 1 }).2.2.2.2.1 (by decide)

/-- C9 counterexample: PushUpdate's transition with the appliance GONE goes
to CalcAction, not to StopVM, so the claim that every vertex in the listed
set routes GONE to StopVM is false for PushUpdate (and likewise ReadStats). -/
theorem c9_counterexample :
    stateTransition SName.pushUpdate (some Event.poll) VmState.gone =
        SName.calcAction ∧
    stateTransition SName.pushUpdate (some Event.poll) VmState.gone ≠
        SName.stopVM ∧
    stateTransition SName.readStats (some Event.poll) VmState.gone ≠
        SName.stopVM := by
  decide

/-- C9 amended: every vertex that inspects the appliance state (CalcAction,
Alive, CreateVM, CheckBoot, ConfigureVM) transitions to StopVM when it is
GONE, and StopVM with GONE transitions to Exit; PushUpdate and ReadStats do
not observe the appliance and always transition to CalcAction. -/
theorem c9_gone_routing (a : Option Event) :
    stateTransition SName.calcAction a VmState.gone = SName.stopVM ∧
    stateTransition SName.alive a VmState.gone = SName.stopVM ∧
    stateTransition SName.createVM a VmState.gone = SName.stopVM ∧
    stateTransition SName.checkBoot a VmState.gone = SName.stopVM ∧
    stateTransition SName.configureVM a VmState.gone = SName.stopVM ∧
    stateTransition SName.stopVM a VmState.gone = SName.exitS ∧
    stateTransition SName.pushUpdate a VmState.gone = SName.calcAction ∧
    stateTransition SName.readStats a VmState.gone = SName.calcAction :=
  ⟨rfl, rfl, rfl, rfl, rfl, rfl, rfl, rfl⟩

/-- Witness for C9 (amended): the routing at a concrete action. -/
theorem c9_gone_routing_witness :
    stateTransition SName.calcAction (some Event.poll) VmState.gone =
        SName.stopVM ∧
    stateTransition SName.stopVM (some Event.poll) VmState.gone =
        SName.exitS :=
  ⟨(c9_gone_routing (some Event.poll)).1,
    (c9_gone_routing (some Event.poll)).2.2.2.2.2.1⟩

/-- C10: PushUpdate's execute prepends UPDATE to the front of the queue and
returns no action; its transition always yields CalcAction, so a pump cycle
through PushUpdate ends with an empty current action, the machine back at
CalcAction, and UPDATE at the head of the queue; the following CalcAction
pass on a DELETE-free queue starts by popping that UPDATE into the action
rather than applying any rule requiring a non-empty action. -/
theorem c10_push_update (ops : VmOps) (th : Nat) (a : Option Event)
    (q : List (Option Event)) (vm : Vm) (c : Config) :
    (stateExecute ops th SName.pushUpdate a q vm =
      (none, some Event.update :: q, vm, {})) ∧
    (∀ st : VmState, stateTransition SName.pushUpdate a st = SName.calcAction) ∧
    (c.state = SName.pushUpdate →
      (cycle ops th c).1.action = none ∧
      (cycle ops th c).1.state = SName.calcAction ∧
      (cycle ops th c).1.queue = some Event.update :: c.queue) ∧
    (some Event.delete ∉ q →
      CalcAction.execute none (some Event.update :: q) =
        CalcAction.execute (some Event.update) q) := by
    refine ⟨rfl, fun st => rfl, ?_, ?_⟩
    · intro hc
      refine ⟨?_, ?_, ?_⟩ <;> simp [cycle, hc, stateExecute, stateTransition]
    · intro hnd
      simp [CalcAction.execute, calcLoop, hnd]

/-- Witness for C10: a concrete cycle through PushUpdate and the following
coalescing step. -/
theorem c10_push_update_witness :
    (cycle stuckOps 3 { c7Cfg with state := SName.pushUpdate }).1.action =
      none ∧
    CalcAction.execute none [some Event.update, some Event.read] =
      CalcAction.execute (some Event.update) [some Event.read] := by
  refine ⟨?_, ?_⟩
  · exact ((c10_push_update stuckOps 3 none [] { state := VmState.up, attempts := 0 }
      { c7Cfg with state := SName.pushUpdate }).2.2.1 rfl).1
  · exact (c10_push_update stuckOps 3 none [some Event.read]
      { state := VmState.up, attempts := 0 }
      { c7Cfg with state := SName.pushUpdate }).2.2.2 (by decide)

/-- The pump cycle body never touches the deleted flag. -/
theorem cycle_deleted_eq (ops : VmOps) (th : Nat) (c : Config) :
    (cycle ops th c).1.deleted = c.deleted := rfl

/-- The pump cycle body never touches the callback arming, the callback
counter or the Exit counter. -/
theorem cycle_cb_eq (ops : VmOps) (th : Nat) (c : Config) :
    (cycle ops th c).1.cbPresent = c.cbPresent ∧
    (cycle ops th c).1.cbCount = c.cbCount ∧
    (cycle ops th c).1.exits = c.exits :=
  ⟨rfl, rfl, rfl⟩

/-- The callback one-shot invariant is preserved by the pump inner loop. -/
theorem pumpLoop_cbInv (ops : VmOps) (th : Nat) :
    ∀ (fuel : Nat) (c : Config), CbInv c → CbInv (pumpLoop ops th fuel c).1 := by
  intro fuel
  induction fuel with
  | zero => intro c hc; exact hc
  | succ n ih =>
    intro c hc
    rw [pumpLoop]
    by_cases hd : c.deleted = true
    · rw [if_pos hd]; exact hc
    · rw [if_neg hd]
      have hc1 : CbInv (cycle ops th c).1 := hc
      by_cases hcalc : (cycle ops th c).1.state = SName.calcAction
      · simp only [hcalc, if_pos rfl]
        exact hc1
      · rw [if_neg hcalc]
        by_cases hexit : (cycle ops th c).1.state = SName.exitS
        · rw [if_pos hexit]
          rcases hc with ⟨h1, h2, h3, h4⟩ | ⟨h1, _, _, _⟩
          · right
            refine ⟨?_, ?_, ?_, ?_⟩ <;>
              simp [doDelete, cycle_deleted_eq, (cycle_cb_eq ops th c).1,
                (cycle_cb_eq ops th c).2.1, (cycle_cb_eq ops th c).2.2,
                h2, h3, h4]
          · exact absurd h1 (by simp [hd])
        · rw [if_neg hexit]
          exact ih (cycle ops th c).1 hc1

/-- The callback one-shot invariant is preserved by send_message. -/
theorem send_cbInv (c : Config) (e : Event) (hc : CbInv c) :
    CbInv (send_message c e).1 := by
  unfold send_message
  split_ifs <;> exact hc

/-- The callback one-shot invariant is preserved by the pump. -/
theorem update_cbInv (ops : VmOps) (th fuel : Nat) (c : Config)
    (hc : CbInv c) : CbInv (Automaton.update ops th fuel c).1 := by
  unfold Automaton.update
  split_ifs
  · exact hc
  · exact pumpLoop_cbInv ops th fuel c hc

/-- The callback one-shot invariant is preserved by any sequence of
send_message and update calls. -/
theorem run_cbInv : ∀ (tr : List Op) (c : Config), CbInv c → CbInv (run c tr) := by
  intro tr
  induction tr with
  | nil => intro c hc; exact hc
  | cons op rest ih =>
    intro c hc
    rcases op with e | ⟨ops, th, fuel⟩
    · exact ih _ (send_cbInv c e hc)
    · exact ih _ (update_cbInv ops th fuel c hc)

/-- C3: across any interleaving of send_message and update calls from the
initial configuration, the delete callback is invoked at most once; it has
been invoked exactly when some pump transitioned into Exit, which happens at
most once, and exactly then the deleted flag is set. -/
theorem c3_delete_callback_once (vm : Vm) (tr : List Op) :
    (run (initConfig vm) tr).cbCount ≤ 1 ∧
    ((run (initConfig vm) tr).cbCount = 1 ↔
      1 ≤ (run (initConfig vm) tr).exits) ∧
    ((run (initConfig vm) tr).deleted = true ↔
      1 ≤ (run (initConfig vm) tr).exits) ∧
    (run (initConfig vm) tr).exits ≤ 1 := by
  have h := run_cbInv tr (initConfig vm) (Or.inl ⟨rfl, rfl, rfl, rfl⟩)
  rcases h with ⟨h1, _, h3, h4⟩ | ⟨h1, _, h3, h4⟩ <;> simp [h1, h3, h4]

/-- Witness for C3: a run that enqueues DELETE and pumps to Exit has fired
the callback exactly once and is deleted. -/
theorem c3_delete_callback_once_witness :
    (run (initConfig { state := VmState.gone, attempts := 0 })
        [Op.send Event.delete, Op.pump stuckOps 3 5]).cbCount ≤ 1 ∧
    ((run (initConfig { state := VmState.gone, attempts := 0 })
        [Op.send Event.delete, Op.pump stuckOps 3 5]).cbCount = 1 ↔
      1 ≤ (run (initConfig { state := VmState.gone, attempts := 0 })
        [Op.send Event.delete, Op.pump stuckOps 3 5]).exits) ∧
    ((run (initConfig { state := VmState.gone, attempts := 0 })
        [Op.send Event.delete, Op.pump stuckOps 3 5]).deleted = true ↔
      1 ≤ (run (initConfig { state := VmState.gone, attempts := 0 })
        [Op.send Event.delete, Op.pump stuckOps 3 5]).exits) ∧
    (run (initConfig { state := VmState.gone, attempts := 0 })
        [Op.send Event.delete, Op.pump stuckOps 3 5]).exits ≤ 1 :=
  c3_delete_callback_once { state := VmState.gone, attempts := 0 }
    [Op.send Event.delete, Op.pump stuckOps 3 5]

/-- The action returned by the coalescing loop is the incoming action or an
element of the incoming queue. -/
theorem calcLoop_action_src :
    ∀ (q : List (Option Event)) (a : Option Event),
      (calcLoop a q).1 = a ∨ (calcLoop a q).1 ∈ q := by
  intro q
  induction q with
  | nil => intro a; left; rfl
  | cons h t ih =>
    intro a
    unfold calcLoop
    split_ifs with h1 h2 h3 h4 h5
    · rcases ih h with hh | hh
      · right; rw [hh]; exact List.mem_cons_self h t
      · right; exact List.mem_cons_of_mem _ hh
    · rcases ih h with hh | hh
      · right; rw [hh]; exact List.mem_cons_self h t
      · right; exact List.mem_cons_of_mem _ hh
    · rcases ih a with hh | hh
      · left; exact hh
      · right; exact List.mem_cons_of_mem _ hh
    · rcases ih a with hh | hh
      · left; exact hh
      · right; exact List.mem_cons_of_mem _ hh
    · left; rfl
    · rcases ih h with hh | hh
      · right; rw [hh]; exact List.mem_cons_self h t
      · right; exact List.mem_cons_of_mem _ hh

/-- The queue left by the coalescing loop is a suffix of the incoming
queue. -/
theorem calcLoop_queue_suffix :
    ∀ (q : List (Option Event)) (a : Option Event), (calcLoop a q).2 <:+ q := by
  intro q
  induction q with
  | nil => intro a; exact List.suffix_refl _
  | cons h t ih =>
    intro a
    unfold calcLoop
    split_ifs with h1 h2 h3 h4 h5
    · exact (ih h).trans (List.suffix_cons h t)
    · exact (ih h).trans (List.suffix_cons h t)
    · exact (ih a).trans (List.suffix_cons h t)
    · exact (ih a).trans (List.suffix_cons h t)
    · exact List.suffix_refl _
    · exact (ih h).trans (List.suffix_cons h t)

/-- With the spec's ERROR latch, one pump cycle preserves the
post-boot-loop invariant and performs no boot call. -/
theorem cycle_noRebuildInv (ops : VmOps) (th : Nat) (hl : ErrorLatch ops)
    (c : Config) (hc : NoRebuildInv c) :
    NoRebuildInv (cycle ops th c).1 ∧ (cycle ops th c).1.boots = c.boots := by
  obtain ⟨hq, ha, hcase⟩ := hc
  rcases hcase with ⟨hvm, hst⟩ | ⟨hst, hact⟩ | hst
  · rcases hst with hst | hst | hst | hst
    · -- CalcAction with the appliance in ERROR
      by_cases hmem : some Event.delete ∈ c.queue
      · have hA : (cycle ops th c).1.action = some Event.delete := by
          simp [cycle, hst, stateExecute, CalcAction.execute, hmem]
        have hQ : (cycle ops th c).1.queue = c.queue := by
          simp [cycle, hst, stateExecute, CalcAction.execute, hmem]
        have hS : (cycle ops th c).1.state = SName.stopVM := by
          simp [cycle, hst, stateExecute, CalcAction.execute, hmem,
            stateTransition, hvm]
        have hB : (cycle ops th c).1.boots = c.boots := by
          simp [cycle, hst, stateExecute]
        refine ⟨⟨?_, ?_, Or.inr (Or.inl ⟨hS, hA⟩)⟩, hB⟩
        · rw [hQ]; exact hq
        · rw [hA]; decide
      · have hA : (cycle ops th c).1.action = (calcLoop c.action c.queue).1 := by
          simp [cycle, hst, stateExecute, CalcAction.execute, hmem]
        have hQ : (cycle ops th c).1.queue = (calcLoop c.action c.queue).2 := by
          simp [cycle, hst, stateExecute, CalcAction.execute, hmem]
        have hV : (cycle ops th c).1.vm = c.vm := by
          simp [cycle, hst, stateExecute]
        have hB : (cycle ops th c).1.boots = c.boots := by
          simp [cycle, hst, stateExecute]
        have ha2 : (calcLoop c.action c.queue).1 ≠ some Event.rebuild := by
          rcases calcLoop_action_src c.queue c.action with hh | hh
          · rw [hh]; exact ha
          · intro hcon; rw [hcon] at hh; exact hq hh
        have hq2 : some Event.rebuild ∉ (calcLoop c.action c.queue).2 :=
          fun hm => hq ((calcLoop_queue_suffix c.queue c.action).subset hm)
        by_cases hdel2 : (calcLoop c.action c.queue).1 = some Event.delete
        · have hS : (cycle ops th c).1.state = SName.stopVM := by
            simp [cycle, hst, stateExecute, CalcAction.execute, hmem,
              stateTransition, hvm, hdel2]
          refine ⟨⟨?_, ?_, Or.inr (Or.inl ⟨hS, hA.trans hdel2⟩)⟩, hB⟩
          · rw [hQ]; exact hq2
          · rw [hA, hdel2]; decide
        · have hS : (cycle ops th c).1.state = SName.alive := by
            simp [cycle, hst, stateExecute, CalcAction.execute, hmem,
              stateTransition, hvm, hdel2, ha2]
          refine ⟨⟨?_, ?_, Or.inl ⟨?_, Or.inr (Or.inl hS)⟩⟩, hB⟩
          · rw [hQ]; exact hq2
          · rw [hA]; exact ha2
          · rw [hV]; exact hvm
    · -- Alive with the appliance in ERROR
      have hup : (ops.update_state c.vm).state = VmState.error := hl.1 c.vm hvm
      have hA : (cycle ops th c).1.action = c.action := by
        simp [cycle, hst, stateExecute]
      have hQ : (cycle ops th c).1.queue = c.queue := by
        simp [cycle, hst, stateExecute]
      have hV : (cycle ops th c).1.vm.state = VmState.error := by
        simp [cycle, hst, stateExecute, hup]
      have hS : (cycle ops th c).1.state = SName.configureVM := by
        simp [cycle, hst, stateExecute, stateTransition, hup]
      have hB : (cycle ops th c).1.boots = c.boots := by
        simp [cycle, hst, stateExecute]
      refine ⟨⟨?_, ?_, Or.inl ⟨hV, Or.inr (Or.inr (Or.inl hS))⟩⟩, hB⟩
      · rw [hQ]; exact hq
      · rw [hA]; exact ha
    · -- ConfigureVM with the appliance in ERROR
      have hcf : (ops.configure c.vm).state = VmState.error := hl.2.1 c.vm hvm
      have hA : (cycle ops th c).1.action = c.action := by
        simp [cycle, hst, stateExecute, hcf]
      have hQ : (cycle ops th c).1.queue = c.queue := by
        simp [cycle, hst, stateExecute, hcf]
      have hV : (cycle ops th c).1.vm.state = VmState.error := by
        simp [cycle, hst, stateExecute, hcf]
      have hB : (cycle ops th c).1.boots = c.boots := by
        simp [cycle, hst, stateExecute, hcf]
      by_cases hread : c.action = some Event.read
      · have hS : (cycle ops th c).1.state = SName.readStats := by
          simp [cycle, hst, stateExecute, stateTransition, hcf, hread]
        refine ⟨⟨?_, ?_, Or.inl ⟨hV, Or.inr (Or.inr (Or.inr hS))⟩⟩, hB⟩
        · rw [hQ]; exact hq
        · rw [hA]; exact ha
      · have hS : (cycle ops th c).1.state = SName.calcAction := by
          simp [cycle, hst, stateExecute, stateTransition, hcf, hread]
        refine ⟨⟨?_, ?_, Or.inl ⟨hV, Or.inl hS⟩⟩, hB⟩
        · rw [hQ]; exact hq
        · rw [hA]; exact ha
    · -- ReadStats with the appliance in ERROR
      have hA : (cycle ops th c).1.action = some Event.poll := by
        simp [cycle, hst, stateExecute]
      have hQ : (cycle ops th c).1.queue = c.queue := by
        simp [cycle, hst, stateExecute]
      have hV : (cycle ops th c).1.vm.state = VmState.error := by
        simp [cycle, hst, stateExecute, hvm]
      have hS : (cycle ops th c).1.state = SName.calcAction := by
        simp [cycle, hst, stateExecute, stateTransition]
      have hB : (cycle ops th c).1.boots = c.boots := by
        simp [cycle, hst, stateExecute]
      refine ⟨⟨?_, ?_, Or.inl ⟨hV, Or.inl hS⟩⟩, hB⟩
      · rw [hQ]; exact hq
      · rw [hA]; decide
  · -- StopVM on the delete path
    rcases hl.2.2 c.vm with hdn | hgn
    · have hA : (cycle ops th c).1.action = some Event.delete := by
        simp [cycle, hst, stateExecute, hdn, hact]
      have hQ : (cycle ops th c).1.queue = c.queue := by
        simp [cycle, hst, stateExecute, hdn]
      have hS : (cycle ops th c).1.state = SName.exitS := by
        simp [cycle, hst, stateExecute, stateTransition, hdn, hact]
      have hB : (cycle ops th c).1.boots = c.boots := by
        simp [cycle, hst, stateExecute, hdn]
      refine ⟨⟨?_, ?_, Or.inr (Or.inr hS)⟩, hB⟩
      · rw [hQ]; exact hq
      · rw [hA]; decide
    · have hA : (cycle ops th c).1.action = some Event.delete := by
        simp [cycle, hst, stateExecute, hgn]
      have hQ : (cycle ops th c).1.queue = c.queue := by
        simp [cycle, hst, stateExecute, hgn]
      have hS : (cycle ops th c).1.state = SName.exitS := by
        simp [cycle, hst, stateExecute, stateTransition, hgn]
      have hB : (cycle ops th c).1.boots = c.boots := by
        simp [cycle, hst, stateExecute, hgn]
      refine ⟨⟨?_, ?_, Or.inr (Or.inr hS)⟩, hB⟩
      · rw [hQ]; exact hq
      · rw [hA]; decide
  · -- Exit
    have hA : (cycle ops th c).1.action = c.action := by
      simp [cycle, hst, stateExecute]
    have hQ : (cycle ops th c).1.queue = c.queue := by
      simp [cycle, hst, stateExecute]
    have hS : (cycle ops th c).1.state = SName.exitS := by
      simp [cycle, hst, stateExecute, stateTransition]
    have hB : (cycle ops th c).1.boots = c.boots := by
      simp [cycle, hst, stateExecute]
    refine ⟨⟨?_, ?_, Or.inr (Or.inr hS)⟩, hB⟩
    · rw [hQ]; exact hq
    · rw [hA]; exact ha

/-- With the spec's ERROR latch, iterated pump cycles from the
post-boot-loop invariant never increase the boot counter. -/
theorem iterCycle_noRebuildInv (ops : VmOps) (th : Nat) (hl : ErrorLatch ops) :
    ∀ (n : Nat) (c : Config), NoRebuildInv c →
      (iterCycle ops th n c).boots = c.boots := by
  intro n
  induction n with
  | zero => intro c _; rfl
  | succ m ih =>
    intro c hc
    obtain ⟨hinv, hb⟩ := cycle_noRebuildInv ops th hl c hc
    calc (iterCycle ops th (m + 1) c).boots
        = (iterCycle ops th m (cycle ops th c).1).boots := rfl
      _ = (cycle ops th c).1.boots := ih _ hinv
      _ = c.boots := hb

/-- The spec-modelled deterministic appliance satisfies the ERROR latch. -/
theorem specOps_errorLatch : ErrorLatch specOps := by
  refine ⟨fun vm h => h, fun vm h => ?_, fun vm => Or.inl rfl⟩
  have hne : vm.state ≠ VmState.up := by rw [h]; decide
  simp [specOps, hne, h]

/-- C5: at or above the reboot threshold, CreateVM's execute calls set_error
and returns the action unchanged without calling boot; below the threshold
it calls boot; with the appliance in ERROR, CreateVM transitions to
CalcAction; and, for any appliance obeying the spec's ERROR latch, from a
post-boot-loop configuration with no REBUILD pending no later pump cycle
ever calls boot. -/
theorem c5_boot_loop_protection (ops : VmOps) (th : Nat) (a : Option Event)
    (q : List (Option Event)) (vm : Vm) :
    (vm.attempts ≥ th →
      stateExecute ops th SName.createVM a q vm =
        (a, q, ops.set_error vm, { setError := 1 })) ∧
    (vm.attempts < th →
      stateExecute ops th SName.createVM a q vm =
        (a, q, ops.boot vm, { boot := 1 })) ∧
    stateTransition SName.createVM a VmState.error = SName.calcAction ∧
    (ErrorLatch ops → ∀ c : Config, NoRebuildInv c → ∀ n : Nat,
      (iterCycle ops th n c).boots = c.boots) := by
  refine ⟨?_, ?_, rfl, fun hl c hc n => iterCycle_noRebuildInv ops th hl n c hc⟩
  · intro hge; simp [stateExecute, hge]
  · intro hlt; simp [stateExecute, Nat.not_le.mpr hlt]

/-- Witness for C5: the threshold branches, the ERROR transition and five
boot-free cycles from a latched ERROR configuration, at concrete inputs. -/
theorem c5_boot_loop_protection_witness :
    (stateExecute specOps 3 SName.createVM (some Event.create) []
        { state := VmState.down, attempts := 3 } =
      (some Event.create, [],
        specOps.set_error { state := VmState.down, attempts := 3 },
        { setError := 1 })) ∧
    (stateExecute specOps 3 SName.createVM (some Event.create) []
        { state := VmState.down, attempts := 0 } =
      (some Event.create, [],
        specOps.boot { state := VmState.down, attempts := 0 },
        { boot := 1 })) ∧
    stateTransition SName.createVM (some Event.create) VmState.error =
      SName.calcAction ∧
    (iterCycle specOps 3 5 c5ErrCfg).boots = c5ErrCfg.boots := by
  refine ⟨(c5_boot_loop_protection specOps 3 (some Event.create) []
      { state := VmState.down, attempts := 3 }).1 (by decide),
    (c5_boot_loop_protection specOps 3 (some Event.create) []
      { state := VmState.down, attempts := 0 }).2.1 (by decide),
    (c5_boot_loop_protection specOps 3 (some Event.create) []
      { state := VmState.down, attempts := 0 }).2.2.1,
    (c5_boot_loop_protection specOps 3 (some Event.create) []
      { state := VmState.down, attempts := 0 }).2.2.2 specOps_errorLatch
      c5ErrCfg (by unfold NoRebuildInv; decide) 5⟩

/-- A pump step whose cycle lands on CalcAction or Exit stops the inner loop
after that one cycle. -/
theorem pumpLoop_yield_step (ops : VmOps) (th fuel : Nat) (c : Config)
    (hd : c.deleted = false) (hy : isYield (cycle ops th c).1) :
    pumpLoop ops th (fuel + 1) c =
      (postOf (cycle ops th c).1, 1, reasonOf (cycle ops th c).1) := by
  have key : pumpLoop ops th (fuel + 1) c =
      if c.deleted then (c, 0, PumpExit.wasDeleted)
      else
        if (cycle ops th c).1.state = SName.calcAction then
          ((cycle ops th c).1, 1, PumpExit.yieldCalc)
        else if (cycle ops th c).1.state = SName.exitS then
          (doDelete { (cycle ops th c).1 with
              exits := (cycle ops th c).1.exits + 1 }, 1, PumpExit.exitDeleted)
        else
          ((pumpLoop ops th fuel (cycle ops th c).1).1,
            (pumpLoop ops th fuel (cycle ops th c).1).2.1 + 1,
            (pumpLoop ops th fuel (cycle ops th c).1).2.2) := rfl
  rw [key, if_neg (by simp [hd])]
  rcases hy with hy | hy
  · have hne : (cycle ops th c).1.state ≠ SName.exitS := by rw [hy]; decide
    rw [if_pos hy, postOf, reasonOf, if_neg hne, if_neg hne]
  · have hne : (cycle ops th c).1.state ≠ SName.calcAction := by
      rw [hy]; decide
    rw [if_neg hne, if_pos hy, postOf, reasonOf, if_pos hy, if_pos hy]

/-- A pump step whose cycle lands elsewhere continues the inner loop on the
new configuration with one less fuel. -/
theorem pumpLoop_cont_step (ops : VmOps) (th fuel : Nat) (c : Config)
    (hd : c.deleted = false) (hy : ¬ isYield (cycle ops th c).1) :
    pumpLoop ops th (fuel + 1) c =
      ((pumpLoop ops th fuel (cycle ops th c).1).1,
        (pumpLoop ops th fuel (cycle ops th c).1).2.1 + 1,
        (pumpLoop ops th fuel (cycle ops th c).1).2.2) := by
  rw [pumpLoop]
  rw [if_neg (by simp [hd])]
  have h1 : (cycle ops th c).1.state ≠ SName.calcAction :=
    fun h => hy (Or.inl h)
  have h2 : (cycle ops th c).1.state ≠ SName.exitS :=
    fun h => hy (Or.inr h)
  simp only [if_neg h1, if_neg h2]

/-- If the k-th cycle is the first to land on CalcAction or Exit and the
fuel exceeds k, the inner loop runs exactly k+1 cycles and stops there. -/
theorem pumpLoop_least (ops : VmOps) (th : Nat) :
    ∀ (k fuel : Nat) (c : Config), c.deleted = false → k < fuel →
      (∀ j, j < k → ¬ isYield (iterCycle ops th (j + 1) c)) →
      isYield (iterCycle ops th (k + 1) c) →
      pumpLoop ops th fuel c =
        (postOf (iterCycle ops th (k + 1) c), k + 1,
          reasonOf (iterCycle ops th (k + 1) c)) := by
  intro k
  induction k with
  | zero =>
    intro fuel c hd hk _ hy
    obtain ⟨m, rfl⟩ : ∃ m, fuel = m + 1 := ⟨fuel - 1, by omega⟩
    exact pumpLoop_yield_step ops th m c hd hy
  | succ n ih =>
    intro fuel c hd hk hmin hy
    obtain ⟨m, rfl⟩ : ∃ m, fuel = m + 1 := ⟨fuel - 1, by omega⟩
    have h0 : ¬ isYield (cycle ops th c).1 := hmin 0 (Nat.succ_pos n)
    rw [pumpLoop_cont_step ops th m c hd h0]
    have hd1 : (cycle ops th c).1.deleted = false := by
      rw [cycle_deleted_eq]; exact hd
    have hmin1 : ∀ j, j < n →
        ¬ isYield (iterCycle ops th (j + 1) (cycle ops th c).1) :=
      fun j hj => hmin (j + 1) (by omega)
    have hy1 : isYield (iterCycle ops th (n + 1) (cycle ops th c).1) := hy
    rw [ih m (cycle ops th c).1 hd1 (by omega) hmin1 hy1]
    rfl

/-- If no cycle within the fuel lands on CalcAction or Exit, the inner loop
consumes all the fuel without returning. -/
theorem pumpLoop_no_yield (ops : VmOps) (th : Nat) :
    ∀ (fuel : Nat) (c : Config), c.deleted = false →
      (∀ j, j < fuel → ¬ isYield (iterCycle ops th (j + 1) c)) →
      pumpLoop ops th fuel c =
        (iterCycle ops th fuel c, fuel, PumpExit.fuelOut) := by
  intro fuel
  induction fuel with
  | zero => intro c _ _; rfl
  | succ m ih =>
    intro c hd hmin
    have h0 : ¬ isYield (cycle ops th c).1 := hmin 0 (Nat.succ_pos m)
    rw [pumpLoop_cont_step ops th m c hd h0]
    have hd1 : (cycle ops th c).1.deleted = false := by
      rw [cycle_deleted_eq]; exact hd
    have hmin1 : ∀ j, j < m →
        ¬ isYield (iterCycle ops th (j + 1) (cycle ops th c).1) :=
      fun j hj => hmin (j + 1) (by omega)
    rw [ih (cycle ops th c).1 hd1 hmin1]
    rfl

/-- C7: a pump invocation on an empty queue performs no cycle at all and
changes nothing; on a non-empty queue with the deleted flag set it is a
no-op; otherwise it returns exactly at the first cycle whose transition
lands on CalcAction (yield) or Exit (running _do_delete), and if no such
cycle occurs within the fuel the loop is still running. -/
theorem c7_pump_return_conditions (ops : VmOps) (th fuel : Nat) (c : Config) :
    (c.queue = [] →
      Automaton.update ops th fuel c = (c, 0, PumpExit.emptyQueue)) ∧
    (c.queue ≠ [] → c.deleted = true → 1 ≤ fuel →
      Automaton.update ops th fuel c = (c, 0, PumpExit.wasDeleted)) ∧
    (c.queue ≠ [] → c.deleted = false → ∀ k, k < fuel →
      (∀ j, j < k → ¬ isYield (iterCycle ops th (j + 1) c)) →
      isYield (iterCycle ops th (k + 1) c) →
      Automaton.update ops th fuel c =
        (postOf (iterCycle ops th (k + 1) c), k + 1,
          reasonOf (iterCycle ops th (k + 1) c))) ∧
    (c.queue ≠ [] → c.deleted = false →
      (∀ j, j < fuel → ¬ isYield (iterCycle ops th (j + 1) c)) →
      Automaton.update ops th fuel c =
        (iterCycle ops th fuel c, fuel, PumpExit.fuelOut)) := by
  refine ⟨?_, ?_, ?_, ?_⟩
  · intro hqe; simp [Automaton.update, hqe]
  · intro hqe hd hf
    obtain ⟨m, rfl⟩ : ∃ m, fuel = m + 1 := ⟨fuel - 1, by omega⟩
    rw [Automaton.update, if_neg hqe, pumpLoop, if_pos hd]
  · intro hqe hd k hk hmin hy
    rw [Automaton.update, if_neg hqe]
    exact pumpLoop_least ops th k fuel c hd hk hmin hy
  · intro hqe hd hmin
    rw [Automaton.update, if_neg hqe]
    exact pumpLoop_no_yield ops th fuel c hd hmin

/-- Witness for C7: a concrete pump that yields at its second cycle, and a
concrete empty-queue no-op. -/
theorem c7_pump_return_conditions_witness :
    Automaton.update specOps 3 5 c7Cfg =
      (postOf (iterCycle specOps 3 2 c7Cfg), 2,
        reasonOf (iterCycle specOps 3 2 c7Cfg)) ∧
    Automaton.update specOps 3 5
        (initConfig { state := VmState.configured, attempts := 0 }) =
      (initConfig { state := VmState.configured, attempts := 0 }, 0,
        PumpExit.emptyQueue) := by
  refine ⟨?_, ?_⟩
  · refine (c7_pump_return_conditions specOps 3 5 c7Cfg).2.2.1
      (by decide) rfl 1 (by decide) ?_ (by unfold isYield; decide)
    intro j hj
    have hj0 : j = 0 := by omega
    subst hj0
    unfold isYield
    decide
  · exact (c7_pump_return_conditions specOps 3 5
      (initConfig { state := VmState.configured, attempts := 0 })).1 rfl

/-- C6 counterexample: with an appliance stuck in UP, a pump on a one-element
queue has not returned after 50 cycles, and the configuration it reaches in
StopVM is a fixed point of the cycle, so it never returns for any fuel:
the number of cycles is not bounded by the queue length plus a small
constant. -/
theorem c6_counterexample :
    (Automaton.update stuckOps 3 50 c6Start).2.2 = PumpExit.fuelOut ∧
    (cycle stuckOps 3 c6Stuck).1 = c6Stuck ∧
    c6Start.queue.length = 1 := by
  refine ⟨by decide, by decide, rfl⟩

/-- C6 amended: the bound fails for appliance behaviours that keep the state
outside DOWN and GONE, where StopVM transitions back to itself forever; when
every stop call reports GONE, a pump entered at CalcAction on a GONE
appliance returns after exactly two cycles, reaching Exit and setting the
deleted flag. -/
theorem c6_amended_gone_bound (ops : VmOps) (th m : Nat) (c : Config)
    (hs : ∀ vm : Vm, (ops.stop vm).state = VmState.gone)
    (hvm : c.vm.state = VmState.gone) (hst : c.state = SName.calcAction)
    (hd : c.deleted = false) (hq : c.queue ≠ []) :
    (Automaton.update ops th (m + 2) c).2.1 = 2 ∧
    (Automaton.update ops th (m + 2) c).2.2 = PumpExit.exitDeleted ∧
    (Automaton.update ops th (m + 2) c).1.deleted = true := by
  have hc1 : (cycle ops th c).1.state = SName.stopVM := by
    simp [cycle, hst, stateExecute, stateTransition, hvm]
  have hexgen : ∀ c1 : Config, c1.state = SName.stopVM →
      (cycle ops th c1).1.state = SName.exitS := by
    intro c1 h1
    simp [cycle, h1, stateExecute, stateTransition, hs]
  have hex : (cycle ops th (cycle ops th c).1).1.state = SName.exitS :=
    hexgen (cycle ops th c).1 hc1
  have h1 : ¬ isYield (iterCycle ops th 1 c) := by
    show ¬ isYield (cycle ops th c).1
    unfold isYield
    rw [hc1]
    decide
  have h2 : isYield (iterCycle ops th 2 c) := by
    show isYield (cycle ops th (cycle ops th c).1).1
    exact Or.inr hex
  have hex2 : (iterCycle ops th 2 c).state = SName.exitS := hex
  have hupd : Automaton.update ops th (m + 2) c =
      (postOf (iterCycle ops th 2 c), 2, reasonOf (iterCycle ops th 2 c)) := by
    rw [Automaton.update, if_neg hq]
    refine pumpLoop_least ops th 1 (m + 2) c hd (by omega) ?_ h2
    intro j hj
    have hj0 : j = 0 := by omega
    subst hj0
    exact h1
  refine ⟨by rw [hupd], ?_, ?_⟩
  · rw [hupd]
    simp [reasonOf, hex2]
  · rw [hupd]
    simp only [postOf, hex2, if_pos rfl, doDelete]
    split_ifs <;> rfl

/-- Witness for C6 (amended): the two-cycle bound at a concrete GONE
appliance and configuration. -/
theorem c6_amended_gone_bound_witness :
    (Automaton.update goneOps 3 5 c6GoneCfg).2.1 = 2 ∧
    (Automaton.update goneOps 3 5 c6GoneCfg).2.2 = PumpExit.exitDeleted ∧
    (Automaton.update goneOps 3 5 c6GoneCfg).1.deleted = true :=
  c6_amended_gone_bound goneOps 3 3 c6GoneCfg (fun _ => rfl) rfl rfl rfl
    (by decide)

end AkandaRug
